import Mathlib

/-!
Verification of `filter_repositories.py`.

The script loads a JSON document (a Python dict after `json.load`), walks
`data.items()`, and for each `(key, value)` computes
`last_checked = value.get("lastCheckedAt")`; the entry goes into `file_a`
when `last_checked is None or (isinstance(last_checked, str) and
last_checked.startswith("2023"))`, otherwise into `file_b`.

We embed Python values produced by `json.load` as the inductive `PyVal`
(JSON `null` becomes Python `None`, strings are kept as their character
lists), and the partition loop as a recursion over the insertion-ordered
association list of the input dict.  Attribute errors Python would raise
(`.get` on a non-dict, `.items()` on a non-dict root) are modelled with
`Except String`.
-/

namespace FilterRepos

/-- A Python value as produced by `json.load`: `None`, booleans, integers,
strings (as character lists), lists, and dicts (insertion-ordered
association lists with string keys). -/
inductive PyVal where
  | none : PyVal
  | bool : Bool → PyVal
  | int : Int → PyVal
  | str : List Char → PyVal
  | list : List PyVal → PyVal
  | dict : List (String × PyVal) → PyVal

/-- `d[k]` lookup on a Python dict, first matching key. -/
def dictFind? (d : List (String × PyVal)) (k : String) : Option PyVal :=
  (d.find? (fun p => p.1 == k)).map Prod.snd

/-- Python `d.get(k)`: the stored value when the key is present, `None`
otherwise. -/
def dictGet (d : List (String × PyVal)) (k : String) : PyVal :=
  match dictFind? d k with
  | some v => v
  | Option.none => PyVal.none

/-- Python `value.get(k)` on an arbitrary value: only dicts have `.get`;
anything else raises `AttributeError`. -/
def pyGet (value : PyVal) (k : String) : Except String PyVal :=
  match value with
  | PyVal.dict d => Except.ok (dictGet d k)
  | _ => Except.error "AttributeError"

/-- Python `x is None`. -/
def is_None : PyVal → Bool
  | PyVal.none => true
  | _ => false

/-- Python `isinstance(x, str)`. -/
def isinstance_str : PyVal → Bool
  | PyVal.str _ => true
  | _ => false

/-- The characters of a Python string value (`[]` on non-strings; only
used under the `isinstance(_, str)` guard). -/
def str_chars : PyVal → List Char
  | PyVal.str s => s
  | _ => []

/-- Python `s.startswith(pre)` on character lists. -/
def startswith (s pre : List Char) : Bool :=
  pre.isPrefixOf s

/-- The condition of line 18 of `filter_repositories.py`:
`last_checked is None or (isinstance(last_checked, str) and
last_checked.startswith("2023"))`. -/
def condA (last_checked : PyVal) : Bool :=
  is_None last_checked ||
    (isinstance_str last_checked && startswith (str_chars last_checked) "2023".data)

/-- The partition loop (lines 16–21) over the items of the loaded dict:
for each `(key, value)`, compute `value.get("lastCheckedAt")` (which can
raise when `value` is not a dict) and route the entry to `file_a` or
`file_b`, preserving insertion order.  The first raising entry aborts the
loop, as in Python. -/
def partitionLoop :
    List (String × PyVal) → Except String (List (String × PyVal) × List (String × PyVal))
  | [] => Except.ok ([], [])
  | (key, value) :: rest =>
    match pyGet value "lastCheckedAt" with
    | Except.error e => Except.error e
    | Except.ok last_checked =>
      match partitionLoop rest with
      | Except.error e => Except.error e
      | Except.ok (a, b) =>
        if condA last_checked then
          Except.ok ((key, value) :: a, b)
        else
          Except.ok (a, (key, value) :: b)

/-- The whole classification stage starting from the deserialized root
`data`: `data.items()` raises `AttributeError` unless `data` is a dict,
then the partition loop runs. -/
def run (data : PyVal) : Except String (List (String × PyVal) × List (String × PyVal)) :=
  match data with
  | PyVal.dict items => partitionLoop items
  | _ => Except.error "AttributeError"

/-- Python `isinstance(x, dict)`; equivalently, whether `x` has the
`.items` attribute the loop header needs. -/
def is_dict : PyVal → Bool
  | PyVal.dict _ => true
  | _ => false

/-- A Record of the spec's data model: a mapping from string field names
to values, i.e. the underlying dict of one repository's metadata. -/
abbrev Record := List (String × PyVal)

/-- A Dataset of the spec's data model: an insertion-ordered mapping from
repository identifiers to Records. -/
abbrev Dataset := List (String × Record)

/-- Classification of one Record, as the loop body computes it:
`value.get("lastCheckedAt")` (total on dicts) fed to the line-18 test. -/
def classifyA (record : Record) : Bool :=
  condA (dictGet record "lastCheckedAt")

/-- The partition loop restricted to a Dataset (every top-level value a
dict), where it is total. -/
def partitionDataset : Dataset → Dataset × Dataset
  | [] => ([], [])
  | (key, value) :: rest =>
    if classifyA value then
      ((key, value) :: (partitionDataset rest).1, (partitionDataset rest).2)
    else
      ((partitionDataset rest).1, (key, value) :: (partitionDataset rest).2)

/-- View a Dataset as the deserialized Python root value. -/
def toPy (data : Dataset) : List (String × PyVal) :=
  data.map (fun kv => (kv.1, PyVal.dict kv.2))

/-- The key set (as a list) of a Dataset. -/
def keys (data : Dataset) : List String :=
  data.map Prod.fst

/-- Lookup of a repository identifier in a Dataset (first match). -/
def datasetFind? (data : Dataset) (k : String) : Option Record :=
  (data.find? (fun p => p.1 == k)).map Prod.snd

/-- The spec's contract for placement into A, stated in the spec's own
words for comparison with the code's `classifyA`: let `v` be
`record["lastCheckedAt"]` if present, else absent; the entry belongs to A
iff `v` is null/absent or a string whose first four characters equal
`"2023"`. -/
def spec_placedInA (record : Record) : Bool :=
  match dictFind? record "lastCheckedAt" with
  | Option.none => true
  | some PyVal.none => true
  | some (PyVal.str s) => s.take 4 == "2023".data
  | some _ => false

/-! ### Basic lemmas about the partition -/

/-- The partition loop on a Dataset is the pair of filters by the line-18
condition, in input order. -/
theorem partitionDataset_eq_filter (data : Dataset) :
    partitionDataset data =
      (data.filter (fun kv => classifyA kv.2),
       data.filter (fun kv => !classifyA kv.2)) := by
  induction data with
  | nil => rfl
  | cons kv rest ih =>
    obtain ⟨k, v⟩ := kv
    simp only [partitionDataset, ih, List.filter_cons]
    cases h : classifyA v <;> simp [h]

/-- On a Dataset (all top-level values dicts) the raw loop never raises and
computes exactly the Dataset-level partition. -/
theorem partitionLoop_toPy (data : Dataset) :
    partitionLoop (toPy data) =
      Except.ok (toPy (partitionDataset data).1, toPy (partitionDataset data).2) := by
  induction data with
  | nil => rfl
  | cons kv rest ih =>
    obtain ⟨k, v⟩ := kv
    show partitionLoop ((k, PyVal.dict v) :: toPy rest) = _
    rw [partitionLoop, ih]
    simp only [pyGet, partitionDataset]
    cases h : classifyA v with
    | true =>
      rw [show condA (dictGet v "lastCheckedAt") = true from h]
      simp [toPy]
    | false =>
      rw [show condA (dictGet v "lastCheckedAt") = false from h]
      simp [toPy]

/-- `startswith s "2023"` is the same test as "the first four characters
of `s` equal `2023`". -/
theorem startswith_2023_iff (s : List Char) :
    startswith s "2023".data = (s.take 4 == "2023".data) := by
  rw [Bool.eq_iff_iff, startswith, beq_iff_eq,
    List.isPrefixOf_iff_prefix, List.prefix_iff_eq_take]
  have h4 : ("2023".data).length = 4 := rfl
  rw [h4, eq_comm]

/-- The code's classification agrees with the spec's contract wording. -/
theorem classifyA_eq_spec (record : Record) :
    classifyA record = spec_placedInA record := by
  have key : ∀ o : Option PyVal,
      condA (match o with | some v => v | Option.none => PyVal.none) =
        (match o with
          | Option.none => true
          | some PyVal.none => true
          | some (PyVal.str s) => s.take 4 == "2023".data
          | some _ => false) := by
    intro o
    match o with
    | Option.none => rfl
    | some PyVal.none => rfl
    | some (PyVal.bool b) => rfl
    | some (PyVal.int n) => rfl
    | some (PyVal.list l) => rfl
    | some (PyVal.dict d) => rfl
    | some (PyVal.str s) =>
      show (false || (true && startswith s "2023".data)) = _
      rw [Bool.false_or, Bool.true_and, startswith_2023_iff]
  exact key (dictFind? record "lastCheckedAt")

/-- Membership in the key list is existence of a bound record. -/
theorem mem_keys_iff (data : Dataset) (k : String) :
    k ∈ keys data ↔ ∃ v, (k, v) ∈ data := by
  constructor
  · intro h
    obtain ⟨p, hp, hk⟩ := List.mem_map.mp h
    refine ⟨p.2, ?_⟩
    have hpe : p = (k, p.2) := by rw [← hk]
    rw [← hpe]
    exact hp
  · rintro ⟨v, hv⟩
    exact List.mem_map.mpr ⟨(k, v), hv, rfl⟩

/-- In a Dataset with no duplicate keys, a key determines its record. -/
theorem record_eq_of_nodup_keys (data : Dataset) (hnd : (keys data).Nodup)
    {k : String} {v w : Record} (hv : (k, v) ∈ data) (hw : (k, w) ∈ data) :
    v = w := by
  induction data with
  | nil => cases hv
  | cons kv rest ih =>
    simp only [keys, List.map_cons, List.nodup_cons] at hnd
    rcases List.mem_cons.mp hv with hv1 | hv1 <;>
      rcases List.mem_cons.mp hw with hw1 | hw1
    · exact (congrArg Prod.snd (hw1.trans hv1.symm)).symm
    · exfalso
      apply hnd.1
      rw [show kv.1 = k from (congrArg Prod.fst hv1).symm]
      exact List.mem_map_of_mem Prod.fst hw1
    · exfalso
      apply hnd.1
      rw [show kv.1 = k from (congrArg Prod.fst hw1).symm]
      exact List.mem_map_of_mem Prod.fst hv1
    · exact ih hnd.2 hv1 hw1

/-- Keys absent from a Dataset are not found. -/
theorem find?_key_eq_none {l : Dataset} {k : String} (hk : k ∉ keys l) :
    l.find? (fun p => p.1 == k) = Option.none := by
  rw [List.find?_eq_none]
  intro x hx h
  apply hk
  refine (mem_keys_iff l k).mpr ⟨x.2, ?_⟩
  have hx1 : x.1 = k := by simpa using h
  have hpe : x = (k, x.2) := by rw [← hx1]
  rw [← hpe]
  exact hx

/-- Filtering cannot introduce keys. -/
theorem not_mem_keys_filter {l : Dataset} {k : String} (q : String × Record → Bool)
    (hk : k ∉ keys l) : k ∉ keys (l.filter q) := by
  intro h
  obtain ⟨v, hv⟩ := (mem_keys_iff _ _).mp h
  exact hk ((mem_keys_iff _ _).mpr ⟨v, List.mem_of_mem_filter hv⟩)

/-- In a duplicate-free Dataset, looking a key up in the concatenation of
the two filter halves gives the same result as looking it up directly. -/
theorem find?_filter_partition (q : String × Record → Bool) (k : String) :
    ∀ data : Dataset, (keys data).Nodup →
      (data.filter q ++ data.filter (fun kv => !q kv)).find? (fun p => p.1 == k) =
        data.find? (fun p => p.1 == k) := by
  intro data
  induction data with
  | nil => intro _; rfl
  | cons kv rest ih =>
    intro hnd
    obtain ⟨k', v⟩ := kv
    simp only [keys, List.map_cons, List.nodup_cons] at hnd
    have ih2 := ih hnd.2
    rw [List.filter_cons, List.filter_cons]
    cases hq : q (k', v) with
    | true =>
      simp only [hq, Bool.not_true]
      rw [if_pos trivial, if_neg (by decide), List.cons_append]
      cases hpk : ((k', v).1 == k) with
      | true => simp only [List.find?_cons, hpk]
      | false =>
        simp only [List.find?_cons, hpk]
        exact ih2
    | false =>
      simp only [hq, Bool.not_false]
      rw [if_neg (by decide), if_pos trivial, List.find?_append]
      cases hpk : ((k', v).1 == k) with
      | true =>
        have hkk : k' = k := by simpa using hpk
        have hnone : (rest.filter q).find? (fun p => p.1 == k) = Option.none := by
          apply find?_key_eq_none
          apply not_mem_keys_filter
          rw [← hkk]
          exact fun hc => hnd.1 hc
        simp only [List.find?_cons, hpk, hnone, Option.none_or]
      | false =>
        simp only [List.find?_cons, hpk]
        rw [← List.find?_append]
        exact ih2

/-! ### The claims -/

/-- C1: for every input Dataset (keys unique, per the data model) and every
key `k`, `k` is never in both outputs of the partition loop, `k` is a key
of the input iff it is a key of output A or of output B, and every input
key lies in exactly one of the two outputs. -/
theorem partition_keys_disjoint_and_exhaustive (data : Dataset)
    (hnd : (keys data).Nodup) (k : String) :
    (¬(k ∈ keys (partitionDataset data).1 ∧ k ∈ keys (partitionDataset data).2)) ∧
    (k ∈ keys data ↔
      (k ∈ keys (partitionDataset data).1 ∨ k ∈ keys (partitionDataset data).2)) ∧
    (k ∈ keys data →
      (k ∈ keys (partitionDataset data).1 ∧ k ∉ keys (partitionDataset data).2) ∨
      (k ∉ keys (partitionDataset data).1 ∧ k ∈ keys (partitionDataset data).2)) := by
  rw [partitionDataset_eq_filter]
  have hdis : ¬(k ∈ keys (data.filter (fun kv => classifyA kv.2)) ∧
      k ∈ keys (data.filter (fun kv => !classifyA kv.2))) := by
    rintro ⟨hA, hB⟩
    obtain ⟨v, hv⟩ := (mem_keys_iff _ k).mp hA
    obtain ⟨w, hw⟩ := (mem_keys_iff _ k).mp hB
    simp only [List.mem_filter, Bool.not_eq_true'] at hv hw
    have hvw := record_eq_of_nodup_keys data hnd hv.1 hw.1
    rw [hvw] at hv
    exact absurd (hv.2.symm.trans hw.2) (by decide)
  have hun : k ∈ keys data ↔
      (k ∈ keys (data.filter (fun kv => classifyA kv.2)) ∨
       k ∈ keys (data.filter (fun kv => !classifyA kv.2))) := by
    constructor
    · intro hk
      obtain ⟨v, hv⟩ := (mem_keys_iff _ k).mp hk
      cases h : classifyA v with
      | true =>
        exact Or.inl ((mem_keys_iff _ k).mpr ⟨v, by simp [List.mem_filter, hv, h]⟩)
      | false =>
        exact Or.inr ((mem_keys_iff _ k).mpr ⟨v, by simp [List.mem_filter, hv, h]⟩)
    · intro hk
      rcases hk with h | h <;>
        obtain ⟨v, hv⟩ := (mem_keys_iff _ k).mp h <;>
        exact (mem_keys_iff _ k).mpr ⟨v, List.mem_of_mem_filter hv⟩
  exact ⟨hdis, hun, fun hk => by tauto⟩

/-- C1 witness at a concrete two-entry Dataset and the key `"a"`. -/
theorem partition_keys_disjoint_and_exhaustive_witness :
    (keys [("a", ([] : Record)), ("b", [("lastCheckedAt", PyVal.int 0)])]).Nodup ∧
    ((¬("a" ∈ keys (partitionDataset
          [("a", ([] : Record)), ("b", [("lastCheckedAt", PyVal.int 0)])]).1 ∧
        "a" ∈ keys (partitionDataset
          [("a", ([] : Record)), ("b", [("lastCheckedAt", PyVal.int 0)])]).2)) ∧
     ("a" ∈ keys [("a", ([] : Record)), ("b", [("lastCheckedAt", PyVal.int 0)])] ↔
       ("a" ∈ keys (partitionDataset
          [("a", ([] : Record)), ("b", [("lastCheckedAt", PyVal.int 0)])]).1 ∨
        "a" ∈ keys (partitionDataset
          [("a", ([] : Record)), ("b", [("lastCheckedAt", PyVal.int 0)])]).2)) ∧
     ("a" ∈ keys [("a", ([] : Record)), ("b", [("lastCheckedAt", PyVal.int 0)])] →
       ("a" ∈ keys (partitionDataset
          [("a", ([] : Record)), ("b", [("lastCheckedAt", PyVal.int 0)])]).1 ∧
        "a" ∉ keys (partitionDataset
          [("a", ([] : Record)), ("b", [("lastCheckedAt", PyVal.int 0)])]).2) ∨
       ("a" ∉ keys (partitionDataset
          [("a", ([] : Record)), ("b", [("lastCheckedAt", PyVal.int 0)])]).1 ∧
        "a" ∈ keys (partitionDataset
          [("a", ([] : Record)), ("b", [("lastCheckedAt", PyVal.int 0)])]).2))) :=
  ⟨by decide,
   partition_keys_disjoint_and_exhaustive
     [("a", []), ("b", [("lastCheckedAt", PyVal.int 0)])] (by decide) "a"⟩


/-- C2: an input entry lands in output A exactly when the spec's condition
holds of its record — `v = record["lastCheckedAt"]` (absent ≡ null) is
null/absent or a string whose first four characters equal `"2023"` — and
in output B exactly otherwise. -/
theorem placement_matches_spec_condition (data : Dataset) (k : String) (r : Record)
    (hmem : (k, r) ∈ data) :
    ((k, r) ∈ (partitionDataset data).1 ↔ spec_placedInA r = true) ∧
    ((k, r) ∈ (partitionDataset data).2 ↔ spec_placedInA r = false) := by
  rw [partitionDataset_eq_filter]
  constructor
  · rw [List.mem_filter]
    simp [hmem, classifyA_eq_spec]
  · rw [List.mem_filter]
    simp [hmem, classifyA_eq_spec]

/-- C2 witness at the singleton Dataset whose one record lacks the field. -/
theorem placement_matches_spec_condition_witness :
    (("k", ([] : Record)) ∈ ([("k", ([] : Record))] : Dataset)) ∧
    ((("k", ([] : Record)) ∈ (partitionDataset [("k", ([] : Record))]).1 ↔
        spec_placedInA ([] : Record) = true) ∧
     (("k", ([] : Record)) ∈ (partitionDataset [("k", ([] : Record))]).2 ↔
        spec_placedInA ([] : Record) = false)) :=
  ⟨List.mem_cons_self _ _,
   placement_matches_spec_condition [("k", [])] "k" [] (List.mem_cons_self _ _)⟩

/-- C3 counterexample: the claim quantifies over every input whose root is
a key-value mapping, but the root `{"k": 5}` is such a mapping and the
classification still raises: `value.get("lastCheckedAt")` fails on the
non-dict record value `5`. -/
theorem classification_raises_on_nondict_value :
    run (PyVal.dict [("k", PyVal.int 5)]) = Except.error "AttributeError" := rfl

/-- C3 amended: when the root is a mapping and every top-level value is
itself a mapping (a Dataset, as the data model requires), the
classification step cannot fail, and a missing `lastCheckedAt` field is
treated as null rather than as an error. -/
theorem classification_total_on_datasets (data : Dataset) (r : Record)
    (hmiss : dictFind? r "lastCheckedAt" = Option.none) :
    (run (PyVal.dict (toPy data))).isOk = true ∧
    dictGet r "lastCheckedAt" = PyVal.none := by
  constructor
  · show (partitionLoop (toPy data)).isOk = true
    rw [partitionLoop_toPy]
    rfl
  · rw [dictGet, hmiss]

/-- C3 amended witness at a one-entry Dataset and the empty record. -/
theorem classification_total_on_datasets_witness :
    dictFind? ([] : Record) "lastCheckedAt" = Option.none ∧
    ((run (PyVal.dict (toPy [("k", ([] : Record))]))).isOk = true ∧
     dictGet ([] : Record) "lastCheckedAt" = PyVal.none) :=
  ⟨rfl, classification_total_on_datasets [("k", [])] [] rfl⟩

/-- C4: an entry whose `lastCheckedAt` value is neither `None` nor a string
(e.g. the integer `2023`) is placed into output B and not into A. -/
theorem nonstring_nonnull_lands_in_B (data : Dataset) (k : String) (r : Record)
    (hmem : (k, r) ∈ data)
    (hnull : is_None (dictGet r "lastCheckedAt") = false)
    (hstr : isinstance_str (dictGet r "lastCheckedAt") = false) :
    (k, r) ∈ (partitionDataset data).2 ∧ (k, r) ∉ (partitionDataset data).1 := by
  have hc : classifyA r = false := by
    rw [classifyA, condA, hnull, hstr]
    rfl
  rw [partitionDataset_eq_filter]
  constructor
  · rw [List.mem_filter]
    simp [hmem, hc]
  · rw [List.mem_filter]
    simp [hc]

/-- C4 witness: `lastCheckedAt` equal to the integer `2023` lands in B. -/
theorem nonstring_nonnull_lands_in_B_witness :
    (("k", [("lastCheckedAt", PyVal.int 2023)]) ∈
        ([("k", [("lastCheckedAt", PyVal.int 2023)])] : Dataset)) ∧
    is_None (dictGet [("lastCheckedAt", PyVal.int 2023)] "lastCheckedAt") = false ∧
    isinstance_str (dictGet [("lastCheckedAt", PyVal.int 2023)] "lastCheckedAt") = false ∧
    (("k", [("lastCheckedAt", PyVal.int 2023)]) ∈
        (partitionDataset [("k", [("lastCheckedAt", PyVal.int 2023)])]).2 ∧
     ("k", [("lastCheckedAt", PyVal.int 2023)]) ∉
        (partitionDataset [("k", [("lastCheckedAt", PyVal.int 2023)])]).1) :=
  ⟨List.mem_cons_self _ _, rfl, rfl,
   nonstring_nonnull_lands_in_B [("k", [("lastCheckedAt", PyVal.int 2023)])] "k"
     [("lastCheckedAt", PyVal.int 2023)] (List.mem_cons_self _ _) rfl rfl⟩

/-- C5: an entry whose `lastCheckedAt` value is a string of fewer than four
characters fails the prefix check and is placed into output B, not A. -/
theorem short_string_lands_in_B (data : Dataset) (k : String) (r : Record)
    (s : List Char) (hmem : (k, r) ∈ data)
    (hv : dictGet r "lastCheckedAt" = PyVal.str s)
    (hshort : s.length < 4) :
    startswith s "2023".data = false ∧
    ((k, r) ∈ (partitionDataset data).2 ∧ (k, r) ∉ (partitionDataset data).1) := by
  have hpre : startswith s "2023".data = false := by
    rw [startswith]
    cases hb : List.isPrefixOf "2023".data s with
    | false => rfl
    | true =>
      exfalso
      have hle := (List.isPrefixOf_iff_prefix.mp hb).length_le
      have h4 : ("2023".data).length = 4 := rfl
      rw [h4] at hle
      omega
  have hc : classifyA r = false := by
    rw [classifyA, condA, hv]
    show (false || (true && startswith s "2023".data)) = false
    rw [Bool.false_or, Bool.true_and, hpre]
  refine ⟨hpre, ?_⟩
  rw [partitionDataset_eq_filter]
  constructor
  · rw [List.mem_filter]
    simp [hmem, hc]
  · rw [List.mem_filter]
    simp [hc]

/-- C5 witness: the two-character string `"20"` fails the check. -/
theorem short_string_lands_in_B_witness :
    (("k", [("lastCheckedAt", PyVal.str "20".data)]) ∈
        ([("k", [("lastCheckedAt", PyVal.str "20".data)])] : Dataset)) ∧
    dictGet [("lastCheckedAt", PyVal.str "20".data)] "lastCheckedAt" =
      PyVal.str "20".data ∧
    ("20".data).length < 4 ∧
    (startswith "20".data "2023".data = false ∧
     (("k", [("lastCheckedAt", PyVal.str "20".data)]) ∈
        (partitionDataset [("k", [("lastCheckedAt", PyVal.str "20".data)])]).2 ∧
      ("k", [("lastCheckedAt", PyVal.str "20".data)]) ∉
        (partitionDataset [("k", [("lastCheckedAt", PyVal.str "20".data)])]).1)) :=
  ⟨List.mem_cons_self _ _, rfl, by decide,
   short_string_lands_in_B [("k", [("lastCheckedAt", PyVal.str "20".data)])] "k"
     [("lastCheckedAt", PyVal.str "20".data)] "20".data
     (List.mem_cons_self _ _) rfl (by decide)⟩

/-- C6: for a Dataset with unique keys, looking any key up in the merge
(concatenation) of outputs A and B gives exactly the record the input
Dataset binds it to; the partition-then-union round trip is the identity
on the key-to-record mapping. -/
theorem union_roundtrip_identity (data : Dataset) (hnd : (keys data).Nodup)
    (k : String) :
    datasetFind? ((partitionDataset data).1 ++ (partitionDataset data).2) k =
      datasetFind? data k := by
  rw [partitionDataset_eq_filter]
  show (List.find? _ _).map Prod.snd = (List.find? _ _).map Prod.snd
  exact congrArg (Option.map Prod.snd)
    (find?_filter_partition (fun kv => classifyA kv.2) k data hnd)

/-- C6 witness at a two-entry Dataset and the key `"r2"`. -/
theorem union_roundtrip_identity_witness :
    (keys [("r1", ([] : Record)), ("r2", [("lastCheckedAt", PyVal.int 0)])]).Nodup ∧
    datasetFind?
        ((partitionDataset
            [("r1", ([] : Record)), ("r2", [("lastCheckedAt", PyVal.int 0)])]).1 ++
         (partitionDataset
            [("r1", ([] : Record)), ("r2", [("lastCheckedAt", PyVal.int 0)])]).2) "r2" =
      datasetFind?
        [("r1", ([] : Record)), ("r2", [("lastCheckedAt", PyVal.int 0)])] "r2" :=
  ⟨by decide,
   union_roundtrip_identity
     [("r1", []), ("r2", [("lastCheckedAt", PyVal.int 0)])] (by decide) "r2"⟩

/-- C7: if the deserialized root is not a key-value mapping, the program
fails with a fatal error (`data.items()` raises) and produces no
partition. -/
theorem nonobject_root_is_fatal (data : PyVal) (h : is_dict data = false) :
    run data = Except.error "AttributeError" := by
  cases data <;> first | rfl | simp [is_dict] at h

/-- C7 witness at the root `[]` (a JSON array, not an object). -/
theorem nonobject_root_is_fatal_witness :
    is_dict (PyVal.list []) = false ∧
    run (PyVal.list []) = Except.error "AttributeError" :=
  ⟨rfl, nonobject_root_is_fatal (PyVal.list []) rfl⟩

/-- C8: the empty input Dataset produces two empty outputs, both through
the Dataset-level partition and through the full classification stage on
the deserialized root `{}`. -/
theorem empty_input_empty_outputs :
    partitionDataset ([] : Dataset) = ([], []) ∧
    run (PyVal.dict []) = Except.ok ([], []) :=
  ⟨rfl, rfl⟩

/-- C9: on the input `{"r1": {"lastCheckedAt": null},
"r2": {"lastCheckedAt": "2023-01-01"}, "r3": {"lastCheckedAt":
"2024-06-01"}}`, output A holds exactly the unchanged entries `r1` and
`r2` (in order) and output B exactly `r3`. -/
theorem example_three_records :
    partitionDataset
        [("r1", [("lastCheckedAt", PyVal.none)]),
         ("r2", [("lastCheckedAt", PyVal.str "2023-01-01".data)]),
         ("r3", [("lastCheckedAt", PyVal.str "2024-06-01".data)])] =
      ([("r1", [("lastCheckedAt", PyVal.none)]),
        ("r2", [("lastCheckedAt", PyVal.str "2023-01-01".data)])],
       [("r3", [("lastCheckedAt", PyVal.str "2024-06-01".data)])]) := rfl

/-- C10: placement is local to each entry — whenever two input Datasets
both contain the key `k` bound to the same record, that entry is in output
A of one run exactly when it is in output A of the other, and likewise for
output B; the surrounding entries never influence it. -/
theorem placement_is_local (d e : Dataset) (k : String) (r : Record)
    (hd : (k, r) ∈ d) (he : (k, r) ∈ e) :
    (((k, r) ∈ (partitionDataset d).1) ↔ ((k, r) ∈ (partitionDataset e).1)) ∧
    (((k, r) ∈ (partitionDataset d).2) ↔ ((k, r) ∈ (partitionDataset e).2)) := by
  rw [partitionDataset_eq_filter, partitionDataset_eq_filter]
  constructor
  · rw [List.mem_filter, List.mem_filter]
    simp [hd, he]
  · rw [List.mem_filter, List.mem_filter]
    simp [hd, he]

/-- C10 witness: the entry `("k", {})` placed in a singleton Dataset and in
a larger Dataset with an extra entry in front. -/
theorem placement_is_local_witness :
    (("k", ([] : Record)) ∈ ([("k", ([] : Record))] : Dataset)) ∧
    (("k", ([] : Record)) ∈
      ([("x", [("lastCheckedAt", PyVal.int 7)]), ("k", ([] : Record))] : Dataset)) ∧
    (((("k", ([] : Record)) ∈ (partitionDataset [("k", ([] : Record))]).1) ↔
      (("k", ([] : Record)) ∈ (partitionDataset
        [("x", [("lastCheckedAt", PyVal.int 7)]), ("k", ([] : Record))]).1)) ∧
     ((("k", ([] : Record)) ∈ (partitionDataset [("k", ([] : Record))]).2) ↔
      (("k", ([] : Record)) ∈ (partitionDataset
        [("x", [("lastCheckedAt", PyVal.int 7)]), ("k", ([] : Record))]).2))) :=
  ⟨List.mem_cons_self _ _,
   List.mem_cons_of_mem _ (List.mem_cons_self _ _),
   placement_is_local [("k", [])]
     [("x", [("lastCheckedAt", PyVal.int 7)]), ("k", [])] "k" []
     (List.mem_cons_self _ _)
     (List.mem_cons_of_mem _ (List.mem_cons_self _ _))⟩

end FilterRepos
